import Mathlib

/-!
Shallow embedding of the technical-signal engine in `dashboard.py`
(Crypto-Dashboard).  Prices and indicator values are modelled as rationals;
an IEEE NaN (pandas "undefined") is modelled as `none` in `Option ℚ`, and
float comparisons against NaN — which are `False` in Python — are modelled
by Bool-valued comparison helpers that return `false` whenever either side
is `none`.  Fallible effects (ccxt network calls, `iloc` on an empty frame)
are modelled with `Except` / `Option`.  The Bollinger standard deviation
involves a real square root, so the band values live in `ℝ`.
-/

/-- Float comparison `a < b` between possibly-NaN values: `false` whenever
either side is NaN (`none`), mirroring IEEE semantics used by pandas. -/
def ltQ : Option ℚ → Option ℚ → Bool
  | some a, some b => decide (a < b)
  | _, _ => false

/-- Float comparison `a > b` between possibly-NaN values (NaN compares false). -/
def gtQ (a b : Option ℚ) : Bool := ltQ b a

/-- One OHLCV bar of the DataFrame built by `get_ohlcv` (columns
`time, open, high, low, close, volume`; `time` is a UTC instant in ms).
The `open` column is called `open_` because `open` is a Lean keyword. -/
structure Bar where
  time : ℤ
  open_ : ℚ
  high : ℚ
  low : ℚ
  close : ℚ
  volume : ℚ
deriving DecidableEq, Repr

/-- One raw OHLCV row as returned by `exchange.fetch_ohlcv`:
`[timestamp_ms, open, high, low, close, volume]`. -/
def RawRow : Type := ℤ × ℚ × ℚ × ℚ × ℚ × ℚ

instance : DecidableEq RawRow := by
  unfold RawRow
  infer_instance

/-- DataFrame construction of `get_ohlcv` (lines 72–73): wrap one raw row into
a `Bar`; the `pd.to_datetime(..., unit="ms")` conversion is order- and
value-preserving, so the timestamp is kept as the raw ms integer. -/
def toBar (r : RawRow) : Bar :=
  ⟨r.1, r.2.1, r.2.2.1, r.2.2.2.1, r.2.2.2.2.1, r.2.2.2.2.2⟩

/-- The ccxt exchange object (`ccxt.binance()`): its two fetch methods either
return data or raise — modelled with `Except String`. -/
structure Exchange where
  fetch_ohlcv : String → String → ℕ → Except String (List RawRow)
  fetch_ticker : String → Except String ℚ

/-- Embedding of `get_ohlcv(symbol, timeframe, limit)` (dashboard.py lines
70–74): it calls `exchange.fetch_ohlcv` and builds the DataFrame.  There is
no `try`/`except` in the source, so an upstream error passes through
unchanged; there is no fallback source and no cache. -/
def get_ohlcv (ex : Exchange) (symbol timeframe : String) (limit : ℕ) :
    Except String (List Bar) :=
  (ex.fetch_ohlcv symbol timeframe limit).map (List.map toBar)

/-- Instrumented variant of `get_ohlcv` that additionally counts upstream
calls: the pair is the fetch result together with the incremented
call counter.  Since the source has no cache, every invocation performs
exactly one upstream request. -/
def get_ohlcv_counted (ex : Exchange) (symbol timeframe : String)
    (limit : ℕ) (calls : ℕ) : Except String (List Bar) × ℕ :=
  (get_ohlcv ex symbol timeframe limit, calls + 1)

/-! ## RSI (`compute_rsi`, lines 76–84)

`series.diff()` is `none` at position 0; `clip` keeps NaN; a rolling mean
(default `min_periods = window`) is `none` unless the whole window is
populated with non-NaN values.  The fraction `avg_gain / avg_loss` followed
by `100 - 100/(1+rs)` is collapsed into `rsiVal`, which reproduces the IEEE
results: `g/0 = +inf` for `g > 0` (giving RSI `100`), `0/0 = NaN`
(giving RSI NaN). -/

/-- Position `i` of `series.diff()`: NaN at position 0 and out of range. -/
def deltaAt (xs : List ℚ) (i : ℕ) : Option ℚ :=
  if i = 0 then none
  else (xs[i]?).bind fun a => (xs[i-1]?).map fun b => a - b

/-- Position `i` of `delta.clip(lower=0)`. -/
def gainAt (xs : List ℚ) (i : ℕ) : Option ℚ :=
  (deltaAt xs i).map fun d => max d 0

/-- Position `i` of `-delta.clip(upper=0)`. -/
def lossAt (xs : List ℚ) (i : ℕ) : Option ℚ :=
  (deltaAt xs i).map fun d => max (-d) 0

/-- Sum of a list of possibly-NaN values; NaN if any entry is NaN. -/
def optionSum : List (Option ℚ) → Option ℚ :=
  List.foldr (fun o acc => o.bind fun x => acc.map fun s => x + s) (some 0)

/-- Position `i` of `gain.rolling(window=period).mean()`: mean of the
`period` entries ending at `i`, NaN if any of them is NaN or out of range
(pandas default `min_periods = window`). -/
def avgGainAt (period : ℕ) (xs : List ℚ) (i : ℕ) : Option ℚ :=
  (optionSum ((List.range period).map fun j => gainAt xs (i - j))).map
    fun s => s / (period : ℚ)

/-- Position `i` of `loss.rolling(window=period).mean()`. -/
def avgLossAt (period : ℕ) (xs : List ℚ) (i : ℕ) : Option ℚ :=
  (optionSum ((List.range period).map fun j => lossAt xs (i - j))).map
    fun s => s / (period : ℚ)

/-- The float computation `rs = g / l; rsi = 100 - 100/(1+rs)` on defined
averages `g, l`: when `l = 0` and `g > 0` the float quotient is `+inf` and
the RSI collapses to exactly `100`; when `l = 0 = g` it is `0/0 = NaN`. -/
def rsiVal (g l : ℚ) : Option ℚ :=
  if l = 0 then (if 0 < g then some 100 else none)
  else some (100 - 100 / (1 + g / l))

/-- Position `i` of the RSI series of `compute_rsi`. -/
def rsiAt (period : ℕ) (xs : List ℚ) (i : ℕ) : Option ℚ :=
  (avgGainAt period xs i).bind fun g =>
    (avgLossAt period xs i).bind fun l => rsiVal g l

/-- Embedding of `compute_rsi(series, period)` (lines 76–84), one
possibly-NaN output per input position. -/
def compute_rsi (xs : List ℚ) (period : ℕ) : List (Option ℚ) :=
  (List.range xs.length).map (rsiAt period xs)

/-! ## Rolling mean, Bollinger bands (`compute_bollinger`, lines 94–99)

`series.rolling(window).mean()` / `.std()` with the pandas defaults
(`min_periods = window`, `ddof = 1`): defined only at positions whose full
window of size `window` is available; the standard deviation is the square
root of the sample variance (denominator `window - 1`).  `sampleVar` is
written in the sum-of-squares form the rolling kernel accumulates; its
equality with the mean-deviation form is proved below (claim C10). -/

/-- The window of size `w` ending at position `i`, when fully populated. -/
def winAt (w : ℕ) (xs : List ℚ) (i : ℕ) : Option (List ℚ) :=
  if i + 1 < w ∨ xs.length ≤ i then none
  else some ((xs.drop (i + 1 - w)).take w)

/-- Arithmetic mean of a list of rationals. -/
def listMean (l : List ℚ) : ℚ := l.sum / (l.length : ℚ)

/-- Sample variance (`ddof = 1`, the pandas `.std()` default), in the
sum-of-squares form `(Σ x² − (Σ x)²/n) / (n − 1)`. -/
def sampleVar (l : List ℚ) : ℚ :=
  ((l.map fun x => x ^ 2).sum - l.sum ^ 2 / (l.length : ℚ)) /
    ((l.length : ℚ) - 1)

/-- Sample standard deviation: the square root forces values into `ℝ`. -/
noncomputable def sampleStd (l : List ℚ) : ℝ :=
  Real.sqrt ((sampleVar l : ℚ) : ℝ)

/-- Position `i` of `series.rolling(w).mean()` — used for `sma` in
`compute_bollinger` and for the `ma20`/`ma50`/`ma200` columns. -/
def smaAt (w : ℕ) (xs : List ℚ) (i : ℕ) : Option ℚ :=
  (winAt w xs i).map listMean

/-- Position `i` of the upper band `sma + num_std * std`. -/
noncomputable def upperAt (w : ℕ) (num_std : ℚ) (xs : List ℚ) (i : ℕ) :
    Option ℝ :=
  (winAt w xs i).map fun l => ((listMean l : ℚ) : ℝ) + ((num_std : ℚ) : ℝ) * sampleStd l

/-- Position `i` of the lower band `sma - num_std * std`. -/
noncomputable def lowerAt (w : ℕ) (num_std : ℚ) (xs : List ℚ) (i : ℕ) :
    Option ℝ :=
  (winAt w xs i).map fun l => ((listMean l : ℚ) : ℝ) - ((num_std : ℚ) : ℝ) * sampleStd l

/-- Embedding of `compute_bollinger(series, window, num_std)` (lines 94–99):
the triple of aligned columns `(sma, upper, lower)`. -/
noncomputable def compute_bollinger (xs : List ℚ) (window : ℕ) (num_std : ℚ) :
    List (Option ℚ) × List (Option ℝ) × List (Option ℝ) :=
  ((List.range xs.length).map (smaAt window xs),
   (List.range xs.length).map (upperAt window num_std xs),
   (List.range xs.length).map (lowerAt window num_std xs))

/-! ## MACD (`compute_macd`, lines 86–92)

`series.ewm(span, adjust=False).mean()` is the recursive smoothing
`y₀ = x₀`, `yᵢ = α·xᵢ + (1-α)·yᵢ₋₁` with `α = 2/(span+1)`; it is defined at
every position of a nonempty series. -/

/-- Tail of the recursive EMA, given the smoothed value `e` so far. -/
def emaAux (a : ℚ) : ℚ → List ℚ → List ℚ
  | _, [] => []
  | e, x :: rest =>
    let e2 := a * x + (1 - a) * e
    e2 :: emaAux a e2 rest

/-- Embedding of `series.ewm(span=span, adjust=False).mean()`. -/
def emaList (span : ℕ) (xs : List ℚ) : List ℚ :=
  match xs with
  | [] => []
  | x :: rest => x :: emaAux (2 / ((span : ℚ) + 1)) x rest

/-- Embedding of `compute_macd(series, fast, slow, signal)` (lines 86–92):
`(macd, signal_line, histogram)`. -/
def compute_macd (xs : List ℚ) (fast slow signal : ℕ) :
    List ℚ × List ℚ × List ℚ :=
  let macd := List.zipWith (fun a b => a - b) (emaList fast xs) (emaList slow xs)
  let signalLine := emaList signal macd
  (macd, signalLine, List.zipWith (fun a b => a - b) macd signalLine)

/-! ## Strategy decisions (lines 155–199)

Each strategy reads the last row (`df.iloc[-1]`) of its own frame and walks
an `if`/`elif` chain; comparisons against NaN are `False`.  `iloc[-1]` on an
empty frame raises `IndexError`, modelled by the frame functions returning
`none`. -/

/-- Float comparison of a possibly-NaN rational against a possibly-NaN real
band value (`a < b`; NaN compares false). -/
noncomputable def ltQR : Option ℚ → Option ℝ → Bool
  | some a, some b => decide ((a : ℝ) < b)
  | _, _ => false

/-- Float comparison `a > b` of a possibly-NaN rational against a
possibly-NaN real band value (NaN compares false). -/
noncomputable def gtQR : Option ℚ → Option ℝ → Bool
  | some a, some b => decide (b < (a : ℝ))
  | _, _ => false

/-- One alert appended to the `alerts` list by the Short strategy; the
source formats the f-string `f"{symbol} Short-Term: {note} (RSI {rsi:.1f})"`
— its three varying components are kept as fields. -/
structure ShortAlert where
  asset : String
  note : String
  rsi : Option ℚ
deriving DecidableEq, Repr

/-- Embedding of the Short-strategy branch chain (lines 159–167) on the last
row of `df_short`: returns the decision together with the alerts appended. -/
noncomputable def decision_short (symbol : String) (rsi : Option ℚ) (close : ℚ)
    (bb_lower bb_upper : Option ℝ) : String × List ShortAlert :=
  if ltQ rsi (some 30) || ltQR (some close) bb_lower then
    ("BUY", [⟨symbol, "Oversold", rsi⟩])
  else if gtQ rsi (some 70) || gtQR (some close) bb_upper then
    ("SELL", [⟨symbol, "Overbought", rsi⟩])
  else ("HOLD", [])

/-- Embedding of the Long-strategy branch chain (lines 174–182) on the last
row of `df_long`. -/
def decision_long (ma50 ma200 : Option ℚ) (close : ℚ) : String :=
  if gtQ ma50 ma200 && gtQ (some close) ma200 then "BUY"
  else if ltQ ma50 ma200 && ltQ (some close) ma200 then "SELL"
  else if gtQ ma50 ma200 then "BULLISH"
  else if ltQ ma50 ma200 then "BEARISH"
  else "HOLD"

/-- Embedding of the Income-strategy branch chain (lines 190–198) on the
last row of `df_inc`. -/
def decision_income (macd signal ma20 : Option ℚ) (close : ℚ) : String :=
  if gtQ macd signal && gtQ (some close) ma20 then "BUY"
  else if ltQ macd signal && ltQ (some close) ma20 then "SELL"
  else if gtQ macd signal then "BULLISH"
  else if ltQ macd signal then "BEARISH"
  else "HOLD"

/-- The Short strategy applied to a whole close series (lines 156–167):
RSI-14 and 20-period Bollinger columns are computed, then the last row is
branched on.  `none` models the `IndexError` raised by `iloc[-1]` on an
empty frame. -/
noncomputable def decisionShortFrame (symbol : String) (closes : List ℚ) :
    Option (String × List ShortAlert) :=
  match closes.getLast? with
  | none => none
  | some c =>
    some (decision_short symbol (rsiAt 14 closes (closes.length - 1)) c
      (lowerAt 20 2 closes (closes.length - 1))
      (upperAt 20 2 closes (closes.length - 1)))

/-- The Long strategy applied to a whole close series (lines 170–183). -/
def decisionLongFrame (closes : List ℚ) : Option String :=
  match closes.getLast? with
  | none => none
  | some c =>
    some (decision_long (smaAt 50 closes (closes.length - 1))
      (smaAt 200 closes (closes.length - 1)) c)

/-- The Income strategy applied to a whole close series (lines 186–199). -/
def decisionIncomeFrame (closes : List ℚ) : Option String :=
  match closes.getLast? with
  | none => none
  | some c =>
    let md := compute_macd closes 12 26 9
    decision_income md.1[closes.length - 1]? md.2.1[closes.length - 1]?
      (smaAt 20 closes (closes.length - 1)) c

/-! ## Percent change and the per-asset batch loop (lines 128–212) -/

/-- Embedding of the closure `pct_change(period_hours)` (lines 145–151) over
the trimmed summary frame: the cutoff is the last bar's timestamp minus
`period_hours` (ms), the subset keeps the bars at or after the cutoff, and
the change is computed from the close of the subset's first row; `None`
when the subset is empty.  (In the source the frame is nonempty whenever
the closure runs; an empty frame is mapped to `none` here as well.) -/
def pct_change (dfSummary : List Bar) (currentPrice : ℚ) (periodHours : ℤ) :
    Option ℚ :=
  match dfSummary.getLast? with
  | none => none
  | some lastBar =>
    let cutoff := lastBar.time - periodHours * 3600000
    match (dfSummary.filter fun b => decide (cutoff ≤ b.time)).head? with
    | none => none
    | some b0 => some ((currentPrice - b0.close) / b0.close * 100)

/-- One element of the `rows` list (lines 201–212): the per-asset summary
record.  The trend column is the trimmed close series. -/
structure Row where
  asset : String
  currentPrice : ℚ
  ch1h : Option ℚ
  ch1d : Option ℚ
  ch1w : Option ℚ
  ch1m : Option ℚ
  trend : List ℚ
  dShort : String
  dLong : String
  dIncome : String
deriving DecidableEq, Repr

/-- The body of the per-asset loop (lines 136–212) for one symbol: fetch the
ticker, build and trim the summary frame, compute the four percent changes,
run the three strategies, and assemble the `Row` together with the Short
alerts appended this iteration.  Every step that raises in Python
(`fetch_ticker`, `fetch_ohlcv`, `iloc[-1]` on an empty frame) surfaces as
`Except.error`; nothing in the source catches it. -/
noncomputable def processAsset (ex : Exchange) (lookbackHours : ℕ)
    (symbol : String) : Except String (Row × List ShortAlert) := do
  let currentPrice ← ex.fetch_ticker symbol
  let dfRaw ← get_ohlcv ex symbol "1h" (min lookbackHours 1000)
  match dfRaw.getLast? with
  | none => Except.error "IndexError"
  | some lastBar =>
    let cutoff := lastBar.time - (lookbackHours : ℤ) * 3600000
    let dfSummary := dfRaw.filter fun b => decide (cutoff ≤ b.time)
    let ch1h := pct_change dfSummary currentPrice 1
    let ch1d := pct_change dfSummary currentPrice 24
    let ch1w := pct_change dfSummary currentPrice (24 * 7)
    let ch1m := pct_change dfSummary currentPrice (24 * 30)
    let dfShort ← get_ohlcv ex symbol "1h" 60
    match decisionShortFrame symbol (dfShort.map Bar.close) with
    | none => Except.error "IndexError"
    | some (dShort, alertsShort) =>
      let dfLong ← get_ohlcv ex symbol "1d" 300
      match decisionLongFrame (dfLong.map Bar.close) with
      | none => Except.error "IndexError"
      | some dLong =>
        let dfInc ← get_ohlcv ex symbol "4h" 120
        match decisionIncomeFrame (dfInc.map Bar.close) with
        | none => Except.error "IndexError"
        | some dIncome =>
          pure (⟨symbol, currentPrice, ch1h, ch1d, ch1w, ch1m,
                 dfSummary.map Bar.close, dShort, dLong, dIncome⟩,
                alertsShort)

/-- The sequential `for symbol in assets` loop: the first uncaught exception
aborts the remaining iterations and the whole run (the Python script dies
before `pd.DataFrame(rows)` is reached), so rows accumulated before the
failure are never part of any output. -/
noncomputable def runBatchAux (ex : Exchange) (lookbackHours : ℕ) :
    List String → Except String (List (Row × List ShortAlert))
  | [] => Except.ok []
  | s :: rest =>
    match processAsset ex lookbackHours s with
    | Except.error e => Except.error e
    | Except.ok v => (runBatchAux ex lookbackHours rest).map fun l => v :: l

/-- The whole summary-table batch (lines 133–212): the `rows` list and the
concatenated `alerts` list, available only when every asset succeeded. -/
noncomputable def runBatch (ex : Exchange) (lookbackHours : ℕ)
    (assets : List String) : Except String (List Row × List ShortAlert) :=
  (runBatchAux ex lookbackHours assets).map fun l =>
    (l.map Prod.fst, (l.map Prod.snd).flatten)

/-! ## Concrete exchanges used as counterexample inputs -/

/-- An exchange whose OHLCV endpoint always fails (network error). -/
def exFail : Exchange where
  fetch_ohlcv := fun _ _ _ => Except.error "ExchangeError"
  fetch_ticker := fun _ => Except.ok 0

/-- Three flat hourly bars, enough for every frame to be nonempty but too
short for any rolling window. -/
def flatRows : List RawRow :=
  [((0 : ℤ), (1 : ℚ), 1, 1, 1, 1),
   ((3600000 : ℤ), (1 : ℚ), 1, 1, 1, 1),
   ((7200000 : ℤ), (1 : ℚ), 1, 1, 1, 1)]

/-- An exchange where BTC/USDT works and ETH/USDT's ticker call raises. -/
def exPartial : Exchange where
  fetch_ohlcv := fun _ _ _ => Except.ok flatRows
  fetch_ticker := fun s =>
    if s = "ETH/USDT" then Except.error "NetworkError" else Except.ok 10

/-- A deterministic healthy exchange used for the cache counterexample. -/
def exOk : Exchange where
  fetch_ohlcv := fun _ _ _ => Except.ok flatRows
  fetch_ticker := fun _ => Except.ok 10

/-! ## Claim theorems -/

/-- C1 counterexample: with an exchange whose primary OHLCV query raises,
`get_ohlcv` propagates the error to its caller instead of returning an
explicitly empty series — refuting the claimed fallback behaviour. -/
theorem c1_cex :
    get_ohlcv exFail "BTC/USDT" "1h" 1000 = Except.error "ExchangeError" ∧
    get_ohlcv exFail "BTC/USDT" "1h" 1000 ≠ Except.ok [] := by
  refine ⟨rfl, ?_⟩
  intro h
  simp [get_ohlcv, exFail, Except.map] at h

/-- C1 (amended): `get_ohlcv` has no exception handling at all — any
primary-source failure is propagated unchanged to the caller; no fallback
source is consulted and no empty series is returned. -/
theorem c1_amended (ex : Exchange) (symbol timeframe : String) (limit : ℕ)
    (e : String) (h : ex.fetch_ohlcv symbol timeframe limit = Except.error e) :
    get_ohlcv ex symbol timeframe limit = Except.error e := by
  unfold get_ohlcv
  rw [h]
  rfl

/-- Witness for `c1_amended` at the concrete failing exchange. -/
theorem c1_amended_witness :
    exFail.fetch_ohlcv "BTC/USDT" "1h" 1000 = Except.error "ExchangeError" ∧
    get_ohlcv exFail "BTC/USDT" "1h" 1000 = Except.error "ExchangeError" :=
  ⟨rfl, c1_amended exFail "BTC/USDT" "1h" 1000 "ExchangeError" rfl⟩

/-- C4 counterexample: two fetches of the same key each hit the upstream —
after the second fetch the upstream call counter is 2, not 1, refuting
"the second fetch does not issue a second upstream call" (the source has no
cache and no TTL at all). -/
theorem c4_cex :
    (get_ohlcv_counted exOk "BTC/USDT" "1h" 1000 0).2 = 1 ∧
    (get_ohlcv_counted exOk "BTC/USDT" "1h" 1000
      ((get_ohlcv_counted exOk "BTC/USDT" "1h" 1000 0).2)).2 = 2 :=
  ⟨rfl, rfl⟩

/-- C4 (amended): there is no cache — every fetch issues exactly one
upstream call (the counter always increments), and two fetches of the same
key return identical series only because the result is whatever the
upstream returns for that key. -/
theorem c4_amended (ex : Exchange) (symbol timeframe : String)
    (limit c c2 : ℕ) :
    (get_ohlcv_counted ex symbol timeframe limit c).1 =
      (get_ohlcv_counted ex symbol timeframe limit c2).1 ∧
    (get_ohlcv_counted ex symbol timeframe limit c).2 = c + 1 :=
  ⟨rfl, rfl⟩

/-- C7: the Long strategy's branch chain evaluated on defined MA values is
ordered with first match winning — `MA50 > MA200 ∧ close > MA200` gives BUY,
else `MA50 < MA200 ∧ close < MA200` gives SELL, else `MA50 > MA200` gives
BULLISH, else `MA50 < MA200` gives BEARISH, and an exact tie
`MA50 = MA200` gives HOLD. -/
theorem c7_decision_long_branches (a b c : ℚ) :
    (b < a ∧ b < c → decision_long (some a) (some b) c = "BUY") ∧
    (a < b ∧ c < b → decision_long (some a) (some b) c = "SELL") ∧
    (b < a ∧ ¬ b < c → decision_long (some a) (some b) c = "BULLISH") ∧
    (a < b ∧ ¬ c < b → decision_long (some a) (some b) c = "BEARISH") ∧
    (a = b → decision_long (some a) (some b) c = "HOLD") := by
  refine ⟨?_, ?_, ?_, ?_, ?_⟩
  · rintro ⟨h1, h2⟩
    simp [decision_long, gtQ, ltQ, h1, h2]
  · rintro ⟨h1, h2⟩
    have h3 : ¬ b < a := lt_asymm h1
    simp [decision_long, gtQ, ltQ, h1, h2, h3]
  · rintro ⟨h1, h2⟩
    simp [decision_long, gtQ, ltQ, h1, h2, lt_asymm h1]
  · rintro ⟨h1, h2⟩
    simp [decision_long, gtQ, ltQ, h1, h2, lt_asymm h1]
  · intro h
    subst h
    simp [decision_long, gtQ, ltQ, lt_irrefl]

/-- Witness for `c7_decision_long_branches`: an exact MA tie yields HOLD. -/
theorem c7_witness :
    (1 : ℚ) = 1 ∧ decision_long (some 1) (some 1) 1 = "HOLD" :=
  ⟨rfl, (c7_decision_long_branches 1 1 1).2.2.2.2 rfl⟩

/-- C8: whenever the Short strategy's last bar has RSI < 30 or close below
the lower band, the decision is BUY and exactly one "Oversold" alert
carrying the asset identifier is emitted. -/
theorem c8_decision_short_buy (symbol : String) (r c : ℚ) (lo hi : ℝ)
    (h : r < 30 ∨ (c : ℝ) < lo) :
    decision_short symbol (some r) c (some lo) (some hi) =
      ("BUY", [⟨symbol, "Oversold", some r⟩]) := by
  rcases h with h | h
  · simp [decision_short, ltQ, ltQR, h]
  · simp [decision_short, ltQ, ltQR, h]

/-- Witness for `c8_decision_short_buy`: RSI = 25 with close above the
lower band yields BUY plus the single oversold alert for the asset. -/
theorem c8_witness :
    (25 : ℚ) < 30 ∧
    decision_short "BTC/USDT" (some 25) 100 (some 90) (some 110) =
      ("BUY", [⟨"BTC/USDT", "Oversold", some 25⟩]) :=
  ⟨by norm_num, c8_decision_short_buy "BTC/USDT" 25 100 90 110 (Or.inl (by norm_num))⟩

/-- C2 counterexample: in a batch over BTC/USDT and ETH/USDT where only
ETH/USDT's ticker call fails, the whole run aborts with the propagated
error — the batch does not complete and even BTC/USDT's finished row is
lost, refuting per-asset error isolation. -/
theorem c2_cex :
    runBatch exPartial 720 ["BTC/USDT", "ETH/USDT"] =
      Except.error "NetworkError" := by
  rfl

/-- C2 (amended): the per-asset loop has no error isolation — the first
asset whose pipeline raises aborts the whole batch with that error, and no
output rows are produced at all, regardless of how many earlier assets
succeeded or how many assets follow. -/
theorem c2_amended (ex : Exchange) (lookback : ℕ) (pre : List String)
    (symbol : String) (post : List String) (e : String)
    (hfail : processAsset ex lookback symbol = Except.error e)
    (hpre : ∀ s ∈ pre, ∃ v, processAsset ex lookback s = Except.ok v) :
    runBatch ex lookback (pre ++ symbol :: post) = Except.error e := by
  have aux : ∀ pre2 : List String,
      (∀ s ∈ pre2, ∃ v, processAsset ex lookback s = Except.ok v) →
      runBatchAux ex lookback (pre2 ++ symbol :: post) = Except.error e := by
    intro pre2
    induction pre2 with
    | nil =>
      intro _
      simp [runBatchAux, hfail]
    | cons a t ih =>
      intro hp
      obtain ⟨v, hv⟩ := hp a (List.mem_cons_self a t)
      simp [runBatchAux, hv,
        ih (fun s hs => hp s (List.mem_cons_of_mem a hs)), Except.map]
  simp [runBatch, aux pre hpre, Except.map]

/-- Witness for `c2_amended`: BTC/USDT alone succeeds, ETH/USDT's failure
aborts the two-asset batch. -/
theorem c2_amended_witness :
    (∃ v, processAsset exPartial 720 "BTC/USDT" = Except.ok v) ∧
    runBatch exPartial 720 ["BTC/USDT", "ETH/USDT"] =
      Except.error "NetworkError" :=
  ⟨⟨_, rfl⟩,
   c2_amended exPartial 720 ["BTC/USDT"] "ETH/USDT" [] "NetworkError" rfl
     (by
       intro s hs
       rw [List.mem_singleton] at hs
       subst hs
       exact ⟨_, rfl⟩)⟩

/-- A NaN entry anywhere in a rolling window makes the window sum NaN. -/
theorem optionSum_eq_none {l : List (Option ℚ)} (h : none ∈ l) :
    optionSum l = none := by
  induction l with
  | nil => cases h
  | cons o t ih =>
    rcases List.mem_cons.mp h with h0 | ht
    · subst h0
      rfl
    · cases o with
      | none => rfl
      | some x => simp [optionSum, List.foldr] at ih ⊢; simp [ih ht]

/-- The diff/gain column is NaN at position 0. -/
theorem gainAt_zero (xs : List ℚ) : gainAt xs 0 = none := rfl

/-- A rolling average of gains whose window reaches back past position 0 is
NaN (pandas `min_periods = window`). -/
theorem avgGainAt_none_of_lt (p : ℕ) (xs : List ℚ) (i : ℕ) (hip : i < p) :
    avgGainAt p xs i = none := by
  have hmem : none ∈ (List.range p).map fun j => gainAt xs (i - j) := by
    refine List.mem_map.mpr ⟨i, List.mem_range.mpr hip, ?_⟩
    rw [Nat.sub_self]
    exact gainAt_zero xs
  simp [avgGainAt, optionSum_eq_none hmem]

/-- A rolling window that is not yet fully populated is undefined. -/
theorem winAt_none_of_lt (w : ℕ) (xs : List ℚ) (i : ℕ) (h : i + 1 < w) :
    winAt w xs i = none := if_pos (Or.inl h)

/-- C3 counterexample: on an empty series the Short strategy does not
resolve to HOLD — `iloc[-1]` raises (`none` in the model), refuting
"empty … evaluates to HOLD and does not raise". -/
theorem c3_cex :
    decisionShortFrame "BTC/USDT" ([] : List ℚ) = none ∧
    decisionShortFrame "BTC/USDT" ([] : List ℚ) ≠ some ("HOLD", []) := by
  refine ⟨rfl, ?_⟩
  intro h
  simp [decisionShortFrame] at h

/-- C3 (amended): on a nonempty series too short for every indicator window
of the strategy (Short: fewer than 15 bars, so RSI-14 and the 20-period
bands are undefined at the last bar; Long: fewer than 50 bars, so MA50 and
MA200 are undefined), the decision falls through to HOLD with no alert and
without raising; an empty series instead raises `IndexError` at
`iloc[-1]`.  (The Income strategy's MACD is defined for every nonempty
series, so its all-indicators-undefined case is exactly the empty one.) -/
theorem c3_amended (symbol : String) (closes : List ℚ) (hne : closes ≠ []) :
    (closes.length < 15 →
      decisionShortFrame symbol closes = some ("HOLD", [])) ∧
    (closes.length < 50 → decisionLongFrame closes = some "HOLD") := by
  have hlast := List.getLast?_eq_getLast closes hne
  have hpos : 0 < closes.length := List.length_pos.mpr hne
  constructor
  · intro h15
    have hrsi : rsiAt 14 closes (closes.length - 1) = none := by
      have hg : avgGainAt 14 closes (closes.length - 1) = none :=
        avgGainAt_none_of_lt _ _ _ (by omega)
      simp [rsiAt, hg]
    have hlo : lowerAt 20 2 closes (closes.length - 1) = none := by
      simp [lowerAt, winAt_none_of_lt 20 closes (closes.length - 1) (by omega)]
    have hup : upperAt 20 2 closes (closes.length - 1) = none := by
      simp [upperAt, winAt_none_of_lt 20 closes (closes.length - 1) (by omega)]
    simp [decisionShortFrame, hlast, hrsi, hlo, hup, decision_short, ltQ,
      ltQR, gtQ, gtQR]
  · intro h50
    have h1 : smaAt 50 closes (closes.length - 1) = none := by
      simp [smaAt, winAt_none_of_lt 50 closes (closes.length - 1) (by omega)]
    have h2 : smaAt 200 closes (closes.length - 1) = none := by
      simp [smaAt, winAt_none_of_lt 200 closes (closes.length - 1) (by omega)]
    simp [decisionLongFrame, hlast, h1, h2, decision_long, gtQ, ltQ]

/-- Witness for `c3_amended`: a 3-bar series gives HOLD with no alert for
both the Short and the Long strategy. -/
theorem c3_amended_witness :
    decisionShortFrame "BTC/USDT" [1, 2, 3] = some ("HOLD", []) ∧
    decisionLongFrame [1, 2, 3] = some "HOLD" :=
  ⟨(c3_amended "BTC/USDT" [1, 2, 3] (by decide)).1 (by decide),
   (c3_amended "BTC/USDT" [1, 2, 3] (by decide)).2 (by decide)⟩

theorem optionSum_some_forall {l : List (Option ℚ)} {s : ℚ}
    (h : optionSum l = some s) : ∀ o ∈ l, ∃ x, o = some x := by
  intro o ho
  cases o with
  | some x => exact ⟨x, rfl⟩
  | none => rw [optionSum_eq_none ho] at h; cases h

theorem optionSum_nonneg {l : List (Option ℚ)} {s : ℚ}
    (hl : ∀ o ∈ l, ∀ x : ℚ, o = some x → 0 ≤ x)
    (h : optionSum l = some s) : 0 ≤ s := by
  induction l generalizing s with
  | nil =>
    cases h
    exact le_refl 0
  | cons o t ih =>
    cases o with
    | none => cases h
    | some x =>
      have hx : 0 ≤ x := hl (some x) (List.mem_cons_self _ _) x rfl
      simp only [optionSum] at h ih
      simp only [List.foldr_cons, Option.some_bind] at h
      cases ht : List.foldr (fun o acc => o.bind fun x => acc.map fun s => x + s)
          (some 0) t with
      | none => rw [ht] at h; cases h
      | some s2 =>
        rw [ht] at h
        have hs2 : 0 ≤ s2 :=
          ih (fun o ho y hy => hl o (List.mem_cons_of_mem _ ho) y hy) ht
        have : x + s2 = s := by
          simpa using h
        linarith

theorem gainAt_some_nonneg {xs : List ℚ} {k : ℕ} {x : ℚ}
    (h : gainAt xs k = some x) : 0 ≤ x := by
  unfold gainAt at h
  cases hd : deltaAt xs k with
  | none => rw [hd] at h; cases h
  | some d =>
    rw [hd] at h
    have : max d 0 = x := by simpa using h
    rw [← this]
    exact le_max_right d 0

theorem lossAt_some_nonneg {xs : List ℚ} {k : ℕ} {x : ℚ}
    (h : lossAt xs k = some x) : 0 ≤ x := by
  unfold lossAt at h
  cases hd : deltaAt xs k with
  | none => rw [hd] at h; cases h
  | some d =>
    rw [hd] at h
    have : max (-d) 0 = x := by simpa using h
    rw [← this]
    exact le_max_right (-d) 0

theorem avgGainAt_nonneg {p : ℕ} {xs : List ℚ} {i : ℕ} {g : ℚ}
    (h : avgGainAt p xs i = some g) : 0 ≤ g := by
  unfold avgGainAt at h
  cases hs : optionSum ((List.range p).map fun j => gainAt xs (i - j)) with
  | none => rw [hs] at h; cases h
  | some s =>
    rw [hs] at h
    have hge : 0 ≤ s := by
      refine optionSum_nonneg ?_ hs
      intro o ho x hx
      obtain ⟨j, _, rfl⟩ := List.mem_map.mp ho
      exact gainAt_some_nonneg hx
    have : s / (p : ℚ) = g := by simpa using h
    rw [← this]
    exact div_nonneg hge (by positivity)

theorem avgLossAt_nonneg {p : ℕ} {xs : List ℚ} {i : ℕ} {g : ℚ}
    (h : avgLossAt p xs i = some g) : 0 ≤ g := by
  unfold avgLossAt at h
  cases hs : optionSum ((List.range p).map fun j => lossAt xs (i - j)) with
  | none => rw [hs] at h; cases h
  | some s =>
    rw [hs] at h
    have hge : 0 ≤ s := by
      refine optionSum_nonneg ?_ hs
      intro o ho x hx
      obtain ⟨j, _, rfl⟩ := List.mem_map.mp ho
      exact lossAt_some_nonneg hx
    have : s / (p : ℚ) = g := by simpa using h
    rw [← this]
    exact div_nonneg hge (by positivity)

theorem avgGainAt_lt_length {p : ℕ} {xs : List ℚ} {i : ℕ} {g : ℚ}
    (hp : 0 < p) (h : avgGainAt p xs i = some g) : i < xs.length := by
  unfold avgGainAt at h
  cases hs : optionSum ((List.range p).map fun j => gainAt xs (i - j)) with
  | none => rw [hs] at h; cases h
  | some s =>
    have hmem : gainAt xs i ∈ (List.range p).map fun j => gainAt xs (i - j) := by
      refine List.mem_map.mpr ⟨0, List.mem_range.mpr hp, ?_⟩
      rw [Nat.sub_zero]
    obtain ⟨x, hx⟩ := optionSum_some_forall hs _ hmem
    unfold gainAt deltaAt at hx
    by_cases hi : i = 0
    · rw [if_pos hi] at hx; cases hx
    · rw [if_neg hi] at hx
      cases hxi : xs[i]? with
      | none => rw [hxi] at hx; cases hx
      | some a => exact (List.getElem?_eq_some.mp hxi).1

/-- C5: for every price series and every positive period, wherever the RSI
of `compute_rsi` is defined it lies in [0, 100], and it is exactly 100 at
any position whose rolling average loss is zero while the rolling average
gain is positive. -/
theorem c5_rsi_bounds (xs : List ℚ) (period i : ℕ) (hp : 0 < period) :
    (∀ v : ℚ, (compute_rsi xs period)[i]? = some (some v) → 0 ≤ v ∧ v ≤ 100) ∧
    (∀ g : ℚ, avgLossAt period xs i = some 0 → avgGainAt period xs i = some g →
      0 < g → (compute_rsi xs period)[i]? = some (some 100)) := by
  constructor
  · intro v hv
    rw [compute_rsi, List.getElem?_map] at hv
    cases hr : (List.range xs.length)[i]? with
    | none => rw [hr] at hv; cases hv
    | some j =>
      rw [hr] at hv
      have hj : rsiAt period xs j = some v := by simpa using hv
      unfold rsiAt at hj
      obtain ⟨g, hg, hj2⟩ := Option.bind_eq_some.mp hj
      obtain ⟨l, hl, hj3⟩ := Option.bind_eq_some.mp hj2
      have hg0 : 0 ≤ g := avgGainAt_nonneg hg
      have hl0 : 0 ≤ l := avgLossAt_nonneg hl
      unfold rsiVal at hj3
      by_cases hlz : l = 0
      · rw [if_pos hlz] at hj3
        by_cases hgz : 0 < g
        · rw [if_pos hgz] at hj3
          have : (100 : ℚ) = v := Option.some.inj hj3
          rw [← this]
          norm_num
        · rw [if_neg hgz] at hj3; cases hj3
      · rw [if_neg hlz] at hj3
        have hv100 : 100 - 100 / (1 + g / l) = v := Option.some.inj hj3
        have hlpos : 0 < l := lt_of_le_of_ne hl0 (Ne.symm hlz)
        have hrs : 0 ≤ g / l := div_nonneg hg0 hl0
        have h1 : (0 : ℚ) < 1 + g / l := by linarith
        have hle : 100 / (1 + g / l) ≤ 100 := div_le_self (by norm_num) (by linarith)
        have hquot : 0 < 100 / (1 + g / l) := div_pos (by norm_num) h1
        constructor
        · linarith [hv100]
        · linarith [hv100]
  · intro g hl hg hgpos
    have hi : i < xs.length := avgGainAt_lt_length hp hg
    rw [compute_rsi, List.getElem?_map, List.getElem?_range hi]
    simp only [Option.map_some', Option.some.injEq]
    unfold rsiAt
    rw [hg, hl]
    simp only [Option.some_bind]
    unfold rsiVal
    rw [if_pos rfl, if_pos hgpos]

/-- Witness for `c5_rsi_bounds` at the source's period 14: a strictly
rising 15-bar series has zero average loss, positive average gain, and RSI
exactly 100 at the last bar. -/
theorem c5_witness :
    avgLossAt 14 [0, 1, 2, 3, 4, 5, 6, 7, 8, 9, 10, 11, 12, 13, 14] 14 = some 0 ∧
    avgGainAt 14 [0, 1, 2, 3, 4, 5, 6, 7, 8, 9, 10, 11, 12, 13, 14] 14 = some 1 ∧
    (compute_rsi [0, 1, 2, 3, 4, 5, 6, 7, 8, 9, 10, 11, 12, 13, 14] 14)[14]? =
      some (some 100) :=
  ⟨by with_unfolding_all rfl, by with_unfolding_all rfl,
   (c5_rsi_bounds [0, 1, 2, 3, 4, 5, 6, 7, 8, 9, 10, 11, 12, 13, 14] 14 14
       (by norm_num)).2 1
     (by with_unfolding_all rfl) (by with_unfolding_all rfl) (by norm_num)⟩

/-- Unfolding of `pct_change` on a frame with a known last bar. -/
theorem pct_change_eq (df : List Bar) (cur : ℚ) (p : ℤ) (lastBar : Bar)
    (hlast : df.getLast? = some lastBar) :
    pct_change df cur p =
      match (df.filter fun b => decide (lastBar.time - p * 3600000 ≤ b.time)).head? with
      | none => none
      | some b0 => some ((cur - b0.close) / b0.close * 100) := by
  unfold pct_change
  rw [hlast]

/-- C6: over a time-sorted summary frame, `pct_change` returns `none` when
no bar lies at or after the window-start cutoff, and otherwise returns
`(current − start) / start × 100` where `start` is the close of the
earliest bar at or after the cutoff. -/
theorem c6_pct_change (df : List Bar) (cur : ℚ) (p : ℤ) (lastBar : Bar)
    (hlast : df.getLast? = some lastBar)
    (hsorted : List.Pairwise (fun a b : Bar => a.time < b.time) df) :
    ((∀ b ∈ df, b.time < lastBar.time - p * 3600000) →
      pct_change df cur p = none) ∧
    (∀ r : ℚ, pct_change df cur p = some r →
      ∃ b ∈ df, lastBar.time - p * 3600000 ≤ b.time ∧
        (∀ b2 ∈ df, lastBar.time - p * 3600000 ≤ b2.time → b.time ≤ b2.time) ∧
        r = (cur - b.close) / b.close * 100) := by
  rw [pct_change_eq df cur p lastBar hlast]
  constructor
  · intro hall
    have hnil : df.filter (fun b => decide (lastBar.time - p * 3600000 ≤ b.time)) = [] := by
      rw [List.filter_eq_nil_iff]
      intro b hb
      simp only [decide_eq_true_eq]
      exact not_le.mpr (hall b hb)
    rw [hnil]
    rfl
  · intro r hr
    cases hh : (df.filter fun b => decide (lastBar.time - p * 3600000 ≤ b.time)).head? with
    | none => rw [hh] at hr; cases hr
    | some b0 =>
      rw [hh] at hr
      obtain ⟨tl, htl⟩ := List.head?_eq_some_iff.mp hh
      have hb0mem : b0 ∈ df.filter fun b => decide (lastBar.time - p * 3600000 ≤ b.time) := by
        rw [htl]
        exact List.mem_cons_self _ _
      have hb0 := List.mem_filter.mp hb0mem
      refine ⟨b0, hb0.1, by simpa using hb0.2, ?_, ?_⟩
      · intro b2 hb2 hcut
        have hb2f : b2 ∈ df.filter fun b => decide (lastBar.time - p * 3600000 ≤ b.time) :=
          List.mem_filter.mpr ⟨hb2, by simpa using hcut⟩
        rw [htl] at hb2f
        rcases List.mem_cons.mp hb2f with h | h
        · rw [h]
        · have hpf : (df.filter fun b => decide (lastBar.time - p * 3600000 ≤ b.time)).Pairwise
              (fun a b : Bar => a.time < b.time) :=
            hsorted.sublist (List.filter_sublist df)
          rw [htl] at hpf
          exact le_of_lt ((List.pairwise_cons.mp hpf).1 b2 h)
      · exact (Option.some.inj hr).symm

/-- Witness for `c6_pct_change`: a frame whose earliest in-window close is
100 with current price 110 reports a 1d change of exactly +10. -/
theorem c6_witness :
    ([⟨0, 100, 100, 100, 100, 0⟩, ⟨36000000, 105, 105, 105, 105, 0⟩] :
        List Bar).getLast? = some ⟨36000000, 105, 105, 105, 105, 0⟩ ∧
    List.Pairwise (fun a b : Bar => a.time < b.time)
      [⟨0, 100, 100, 100, 100, 0⟩, ⟨36000000, 105, 105, 105, 105, 0⟩] ∧
    pct_change [⟨0, 100, 100, 100, 100, 0⟩, ⟨36000000, 105, 105, 105, 105, 0⟩]
      110 24 = some 10 ∧
    (∃ b ∈ ([⟨0, 100, 100, 100, 100, 0⟩, ⟨36000000, 105, 105, 105, 105, 0⟩] :
        List Bar),
      (36000000 : ℤ) - 24 * 3600000 ≤ b.time ∧
      (∀ b2 ∈ ([⟨0, 100, 100, 100, 100, 0⟩,
          ⟨36000000, 105, 105, 105, 105, 0⟩] : List Bar),
        (36000000 : ℤ) - 24 * 3600000 ≤ b2.time → b.time ≤ b2.time) ∧
      (10 : ℚ) = (110 - b.close) / b.close * 100) :=
  ⟨by with_unfolding_all rfl,
   by constructor
      · intro b hb
        rcases List.mem_cons.mp hb with h | h
        · rw [h]; decide
        · cases h
      · exact List.pairwise_singleton _ _,
   by with_unfolding_all rfl,
   (c6_pct_change
      [⟨0, 100, 100, 100, 100, 0⟩, ⟨36000000, 105, 105, 105, 105, 0⟩] 110 24
      ⟨36000000, 105, 105, 105, 105, 0⟩ (by with_unfolding_all rfl)
      (by constructor
          · intro b hb
            rcases List.mem_cons.mp hb with h | h
            · rw [h]; decide
            · cases h
          · exact List.pairwise_singleton _ _)).2 10
     (by with_unfolding_all rfl)⟩

/-- Indexing a map over `List.range`. -/
theorem mapRange_some {α : Type} (f : ℕ → α) (n i : ℕ) (a : α)
    (h : ((List.range n).map f)[i]? = some a) : i < n ∧ f i = a := by
  rw [List.getElem?_map] at h
  by_cases hi : i < n
  · rw [List.getElem?_range hi] at h
    exact ⟨hi, Option.some.inj (by simpa using h)⟩
  · have hnone : (List.range n)[i]? = none := by
      rw [List.getElem?_eq_none]
      simpa [List.length_range] using hi
    rw [hnone] at h
    cases h

/-- Structure of a defined rolling window. -/
theorem winAt_some {w : ℕ} {xs : List ℚ} {i : ℕ} {L : List ℚ}
    (h : winAt w xs i = some L) :
    w ≤ i + 1 ∧ i < xs.length ∧ L = (xs.drop (i + 1 - w)).take w ∧
      L.length = w := by
  unfold winAt at h
  by_cases hc : i + 1 < w ∨ xs.length ≤ i
  · rw [if_pos hc] at h
    cases h
  · rw [if_neg hc] at h
    push_neg at hc
    obtain ⟨h1, h2⟩ := hc
    have hL : L = (xs.drop (i + 1 - w)).take w := (Option.some.inj h).symm
    refine ⟨h1, h2, hL, ?_⟩
    rw [hL, List.length_take, List.length_drop]
    omega

/-- C9: wherever the Bollinger mid, upper and lower bands are all defined,
`upper ≥ mid ≥ lower` (the band offset is `2 · std` with `std ≥ 0`). -/
theorem c9_bollinger_order (xs : List ℚ) (i : ℕ) (m : ℚ) (u lo : ℝ)
    (hm : ((compute_bollinger xs 20 2).1)[i]? = some (some m))
    (hu : ((compute_bollinger xs 20 2).2.1)[i]? = some (some u))
    (hlo : ((compute_bollinger xs 20 2).2.2)[i]? = some (some lo)) :
    lo ≤ (m : ℝ) ∧ (m : ℝ) ≤ u := by
  unfold compute_bollinger at hm hu hlo
  obtain ⟨_, hm2⟩ := mapRange_some _ _ _ _ hm
  obtain ⟨_, hu2⟩ := mapRange_some _ _ _ _ hu
  obtain ⟨_, hlo2⟩ := mapRange_some _ _ _ _ hlo
  unfold smaAt at hm2
  unfold upperAt at hu2
  unfold lowerAt at hlo2
  cases hw : winAt 20 xs i with
  | none =>
    rw [hw] at hu2
    cases hu2
  | some L =>
    rw [hw] at hm2 hu2 hlo2
    simp only [Option.map_some', Option.some.injEq] at hm2 hu2 hlo2
    have hstd : 0 ≤ sampleStd L := Real.sqrt_nonneg _
    have h2 : (0 : ℝ) ≤ ((2 : ℚ) : ℝ) := by norm_num
    have hmul : (0 : ℝ) ≤ ((2 : ℚ) : ℝ) * sampleStd L := mul_nonneg h2 hstd
    constructor
    · rw [← hlo2, ← hm2]
      linarith
    · rw [← hu2, ← hm2]
      linarith

/-- Witness for `c9_bollinger_order` on a constant 20-bar window. -/
theorem c9_witness :
    ((1 : ℚ) : ℝ) - ((2 : ℚ) : ℝ) * sampleStd (List.replicate 20 (1 : ℚ)) ≤
      ((1 : ℚ) : ℝ) ∧
    ((1 : ℚ) : ℝ) ≤
      ((1 : ℚ) : ℝ) + ((2 : ℚ) : ℝ) * sampleStd (List.replicate 20 (1 : ℚ)) :=
  c9_bollinger_order (List.replicate 20 1) 19 1
    (((1 : ℚ) : ℝ) + ((2 : ℚ) : ℝ) * sampleStd (List.replicate 20 (1 : ℚ)))
    (((1 : ℚ) : ℝ) - ((2 : ℚ) : ℝ) * sampleStd (List.replicate 20 (1 : ℚ)))
    (by with_unfolding_all rfl) (by with_unfolding_all rfl)
    (by with_unfolding_all rfl)

/-- Expansion of a sum of squared deviations about an arbitrary center. -/
theorem sum_sq_expand (l : List ℚ) (c : ℚ) :
    (l.map fun x => (x - c) ^ 2).sum =
      (l.map fun x => x ^ 2).sum - 2 * c * l.sum + (l.length : ℚ) * c ^ 2 := by
  induction l with
  | nil => simp
  | cons a t ih =>
    simp only [List.map_cons, List.sum_cons, List.length_cons]
    rw [ih]
    push_cast
    ring

/-- C10: on every fully populated window the Bollinger standard deviation is
the sample convention — its square is the sum of squared deviations from
the window mean divided by `w − 1` — and it differs from the population
convention (dividing by `w`) whenever the deviations do not vanish. -/
theorem c10_sample_std (w : ℕ) (xs : List ℚ) (i : ℕ) (L : List ℚ) (k : ℚ)
    (hw : 2 ≤ w) (hL : winAt w xs i = some L) :
    sampleVar L = ((L.map fun x => (x - listMean L) ^ 2).sum) / ((w : ℚ) - 1) ∧
    sampleStd L = Real.sqrt
      ((((L.map fun x => (x - listMean L) ^ 2).sum) / ((w : ℚ) - 1) : ℚ)) ∧
    upperAt w k xs i = some (((listMean L : ℚ) : ℝ) + ((k : ℚ) : ℝ) *
      Real.sqrt ((((L.map fun x => (x - listMean L) ^ 2).sum) / ((w : ℚ) - 1) : ℚ))) ∧
    (((L.map fun x => (x - listMean L) ^ 2).sum) ≠ 0 →
      sampleVar L ≠ ((L.map fun x => (x - listMean L) ^ 2).sum) / (w : ℚ)) := by
  have hlen : L.length = w := (winAt_some hL).2.2.2
  have hwQ : (2 : ℚ) ≤ (w : ℚ) := by exact_mod_cast hw
  have hwne : (w : ℚ) ≠ 0 := by intro h; rw [h] at hwQ; norm_num at hwQ
  have hdev : (L.map fun x => (x - listMean L) ^ 2).sum =
      (L.map fun x => x ^ 2).sum - L.sum ^ 2 / (w : ℚ) := by
    rw [sum_sq_expand]
    simp only [listMean, hlen]
    field_simp
    ring
  have h1 : sampleVar L =
      ((L.map fun x => (x - listMean L) ^ 2).sum) / ((w : ℚ) - 1) := by
    unfold sampleVar
    rw [hlen, hdev]
  have h2 : sampleStd L = Real.sqrt
      ((((L.map fun x => (x - listMean L) ^ 2).sum) / ((w : ℚ) - 1) : ℚ)) := by
    unfold sampleStd
    rw [h1]
  refine ⟨h1, h2, ?_, ?_⟩
  · unfold upperAt
    rw [hL]
    simp only [Option.map_some']
    rw [h2]
  · intro hd hEq
    rw [h1] at hEq
    have hw1 : (w : ℚ) - 1 ≠ 0 := by intro h; have : (w : ℚ) = 1 := by linarith
                                     linarith
    rw [div_eq_div_iff hw1 hwne] at hEq
    apply hd
    linear_combination hEq

/-- Witness for `c10_sample_std` on a 20-bar window with nonzero variance. -/
theorem c10_witness :
    (2 ≤ 20) ∧
    winAt 20 [0, 1, 2, 3, 4, 5, 6, 7, 8, 9, 10, 11, 12, 13, 14, 15, 16, 17, 18, 19] 19 =
      some [0, 1, 2, 3, 4, 5, 6, 7, 8, 9, 10, 11, 12, 13, 14, 15, 16, 17, 18, 19] ∧
    sampleVar [0, 1, 2, 3, 4, 5, 6, 7, 8, 9, 10, 11, 12, 13, 14, 15, 16, 17, 18, 19] =
      (([0, 1, 2, 3, 4, 5, 6, 7, 8, 9, 10, 11, 12, 13, 14, 15, 16, 17, 18, 19].map
          fun x => (x - listMean [0, 1, 2, 3, 4, 5, 6, 7, 8, 9, 10, 11, 12, 13, 14,
            15, 16, 17, 18, 19]) ^ 2).sum) / (((20 : ℕ) : ℚ) - 1) :=
  ⟨by norm_num, by with_unfolding_all rfl,
   (c10_sample_std 20
      [0, 1, 2, 3, 4, 5, 6, 7, 8, 9, 10, 11, 12, 13, 14, 15, 16, 17, 18, 19] 19
      [0, 1, 2, 3, 4, 5, 6, 7, 8, 9, 10, 11, 12, 13, 14, 15, 16, 17, 18, 19] 2
      (by norm_num) (by with_unfolding_all rfl)).1⟩
